import Mathlib

/-!
Verification development for the websocket relay server
(websocket-server.js) and its connection registry.

The server's behaviour is shallowly embedded below:

* `ReadyState` mirrors the four transport connection states
  (CONNECTING/OPEN/CLOSING/CLOSED) of the ws library.
* `Json` models a parsed JSON value; `JSON.parse` is a runtime builtin,
  so parsing is abstracted as a `String → Option Json` parameter (`none`
  models a parse exception caught by the handler's try/catch).
* `Notification` models the four outbound wire shapes the server
  stringifies and sends (welcome / echo / broadcast / error).
  Timestamps come from separate `new Date().toISOString()` calls; they
  are modelled as samples `ts k` of an abstract clock, one fresh sample
  index per Date call, in evaluation order.
* `handleMessage` embeds the body of `ws.on('message', ...)`:
  parse, echo to the sender, then the `wss.clients.forEach` broadcast
  fan-out guarded by `client !== ws && client.readyState === OPEN`.
  Clients are identified by numeric ids; `client !== ws` (reference
  inequality) is modelled as id inequality, ids being unique per socket.
-/

inductive ReadyState where
  | CONNECTING
  | OPEN
  | CLOSING
  | CLOSED
deriving DecidableEq, Repr

structure Client where
  id : Nat
  readyState : ReadyState
deriving DecidableEq, Repr

/-- A parsed JSON value (the result of a successful `JSON.parse`). -/
inductive Json where
  | null
  | bool (b : Bool)
  | num (n : Int)
  | str (s : String)
  | arr (elems : List Json)
  | obj (fields : List (String × Json))

/-- An outbound message shape, as built by the server before
`JSON.stringify`.  The `error` shape carries no timestamp, exactly as in
the source. -/
inductive Notification where
  | welcome (message : String) (timestamp : Nat)
  | echo (original : Json) (timestamp : Nat)
  | broadcast (message : Json) (timestamp : Nat)
  | error (message : String)

def Notification.isWelcome : Notification → Bool
  | .welcome _ _ => true
  | _ => false

def Notification.isEcho : Notification → Bool
  | .echo _ _ => true
  | _ => false

def Notification.isBroadcast : Notification → Bool
  | .broadcast _ _ => true
  | _ => false

def Notification.isError : Notification → Bool
  | .error _ => true
  | _ => false

/-- One attempted `send`: which socket it targets and what is sent. -/
structure SendEvent where
  target : Nat
  payload : Notification

/-- The `wss.clients.forEach` fan-out of the message handler: iterate the
current client set in order; for every client other than the sender whose
readyState is OPEN, send a `broadcast` notification carrying the parsed
message and a fresh timestamp sample (`new Date()` is evaluated once per
actual send, so the sample counter `k` advances only on sends). -/
def broadcastFanout (sender : Client) (msg : Json) (ts : Nat → Nat) :
    List Client → Nat → List SendEvent
  | [], _ => []
  | c :: rest, k =>
      if c.id ≠ sender.id ∧ c.readyState = ReadyState.OPEN then
        ⟨c.id, Notification.broadcast msg (ts k)⟩ :: broadcastFanout sender msg ts rest (k + 1)
      else
        broadcastFanout sender msg ts rest k

/-- The body of `ws.on('message', (data) => ...)`: try to parse the raw
payload; on success send an `echo` (with the first timestamp sample) back
to the sender and then run the broadcast fan-out; on parse failure the
catch block sends a single `error` notification (fixed text, no
timestamp) to the sender and nothing else.  The list returned is the
sequence of send attempts in dispatch order. -/
def handleMessage (clients : List Client) (sender : Client)
    (parse : String → Option Json) (data : String) (ts : Nat → Nat) :
    List SendEvent :=
  match parse data with
  | some message =>
      ⟨sender.id, Notification.echo message (ts 0)⟩ ::
        broadcastFanout sender message ts clients 1
  | none =>
      [⟨sender.id, Notification.error "Invalid JSON format"⟩]

/-- The clients of the registry other than the sender whose transport is
open: exactly those that pass the fan-out's guard. -/
def otherOpen : List Client → Client → List Client
  | [], _ => []
  | c :: rest, sender =>
      if c.id ≠ sender.id ∧ c.readyState = ReadyState.OPEN then
        c :: otherOpen rest sender
      else
        otherOpen rest sender

/-- A concrete parse function for witnesses: the single payload "a"
parses to JSON null, everything else fails to parse. -/
def parseDemo (s : String) : Option Json :=
  if s = "a" then some Json.null else none

/-!
### Global server model

Node's event loop runs one handler to completion at a time, so the server
is modelled as a sequential machine consuming global events:

* `connect id` embeds the `wss.on('connection', ...)` handler: the ws
  library has added the socket to `wss.clients` when the handler runs,
  and the handler synchronously sends the welcome notification (no other
  handler can interleave before it returns).
* `message sid data` embeds a `ws.on('message', ...)` firing on the
  socket with id `sid` (the handler closure belongs to a registered
  socket); it mutates no server state.
* `disconnect id` embeds a socket close: the ws library removes the
  socket from `wss.clients`; the repo's close handlers only log and
  clear the ping interval, sending nothing.

`ts` abstracts the wall clock read by each `new Date()` call; no theorem
below compares timestamps across steps, so per-step sample indices
suffice.
-/

inductive GEvent where
  | connect (id : Nat)
  | message (sid : Nat) (data : String)
  | disconnect (id : Nat)

structure ServerState where
  clients : List Client

def gStep (parse : String → Option Json) (ts : Nat → Nat) (s : ServerState) :
    GEvent → ServerState × List SendEvent
  | .connect id =>
      (⟨s.clients ++ [⟨id, ReadyState.OPEN⟩]⟩,
       [⟨id, Notification.welcome "Connected to WebSocket server" (ts 0)⟩])
  | .message sid data =>
      match s.clients.find? (fun c => decide (c.id = sid)) with
      | some sender => (s, handleMessage s.clients sender parse data ts)
      | none => (s, [])
  | .disconnect id =>
      (⟨s.clients.filter (fun c => decide (c.id ≠ id))⟩, [])

/-- All send attempts produced while consuming a list of global events. -/
def sentTrace (parse : String → Option Json) (ts : Nat → Nat) :
    ServerState → List GEvent → List SendEvent
  | _, [] => []
  | s, e :: rest =>
      (gStep parse ts s e).2 ++ sentTrace parse ts (gStep parse ts s e).1 rest

/-- The per-connection receive loop over a list of inbound raw payloads
in arrival order: Node runs each 'message' handler to completion, so the
send attempts of one inbound message are all dispatched before the next
inbound message on the same connection is handled. -/
def messageTrace (clients : List Client) (sender : Client)
    (parse : String → Option Json) (ts : Nat → Nat) : List String → List SendEvent
  | [] => []
  | d :: rest =>
      handleMessage clients sender parse d ts ++ messageTrace clients sender parse ts rest

/-- Delivery of attempted sends under per-recipient transport failures.
The message handler dispatches `client.send` for each eligible recipient
without inspecting any result: the ws transport reports send errors
asynchronously (a send on an OPEN socket does not throw into the
handler), so the attempt list is `handleMessage` itself whatever the
transports do, and a failure oracle only determines which attempted
sends actually reach their target. -/
def deliver (fails : Nat → Bool) (evs : List SendEvent) : List SendEvent :=
  evs.filter (fun e => ! fails e.target)

/-!
### Per-connection liveness timer and close path

`lifeStep .tick` embeds the firing of
`setInterval(() => { if (ws.readyState === OPEN) ws.ping(); }, 30000)`:
a probe is issued only while the interval is armed and the connection is
OPEN.  `closePath` embeds the `ws.on('close', ...)` handlers —
`clearInterval(pingInterval)` disarms the timer — together with the
registry removal the ws library performs on close (modelled from the
spec, §3 Registry invariant: membership mirrors "currently open").  The
transport emits one single 'close' event per socket regardless of
whether a remote close or the shutdown handler's `client.close()` caused
it; theorems below carry that as the hypothesis that a lifecycle trace
holds at most one close event.  The `pong` handler of the source only
logs, so probe acknowledgements do not appear in the state.
-/

def pingIntervalMs : Nat := 30000

structure TimerState where
  readyState : ReadyState
  timerActive : Bool
  registered : Bool
  probes : Nat
  cleanupRuns : Nat
deriving DecidableEq, Repr

inductive LifeEvent where
  | tick
  | remoteClose
  | shutdownClose
deriving DecidableEq, Repr

def closePath (s : TimerState) : TimerState :=
  { s with readyState := ReadyState.CLOSED, timerActive := false,
           registered := false, cleanupRuns := s.cleanupRuns + 1 }

def lifeStep (s : TimerState) : LifeEvent → TimerState
  | .tick =>
      if s.timerActive then
        (if s.readyState = ReadyState.OPEN then { s with probes := s.probes + 1 } else s)
      else s
  | .remoteClose => closePath s
  | .shutdownClose => closePath s

def lifeRun : TimerState → List LifeEvent → TimerState
  | s, [] => s
  | s, e :: rest => lifeRun (lifeStep s e) rest

def isCloseEvent : LifeEvent → Bool
  | .tick => false
  | .remoteClose => true
  | .shutdownClose => true

/-- A freshly accepted connection: open, ping interval armed, in the
registry, no probes issued, close path not yet run. -/
def openConn : TimerState :=
  ⟨ReadyState.OPEN, true, true, 0, 0⟩

/-!
### Shutdown sequence

The `process.on('SIGINT', ...)` handler iterates `wss.clients` calling
`client.close()` on each, then calls `wss.close(callback)`; the callback
logs and exits the process, signalling completion.  Modelled from the
spec (§4.2 Shutdown): the internals of `wss.close` live in the ws
library, not in the repository source — it stops accepting new
connections at once, the listening resource is released after the
tracked connections have finished their close paths, and the completion
callback runs last.
-/

inductive ShutEvent where
  | closeConn (id : Nat)
  | stopAccepting
  | connFinished (id : Nat)
  | releaseListener
  | signalComplete
deriving DecidableEq, Repr

def shutdownTrace (registry : List Nat) : List ShutEvent :=
  registry.map ShutEvent.closeConn
    ++ [ShutEvent.stopAccepting]
    ++ registry.map ShutEvent.connFinished
    ++ [ShutEvent.releaseListener, ShutEvent.signalComplete]

/-!
### Connection Registry contract

Modelled from the spec: §4.1.  The reference implementation delegates
client tracking to the ws library's `wss.clients` set, which is not part
of the repository source; the register/unregister operations below
follow the spec's contract: `register` fails with `DuplicateIdentifier`
when the identifier already exists (returning an error and leaving the
registry value untouched), `unregister` removes the identified
connection when present and is a total no-op when absent (being a total
function, it never raises).
-/

inductive RegError where
  | DuplicateIdentifier
deriving DecidableEq, Repr

def register (r : List Client) (c : Client) : Except RegError (List Client) :=
  if r.any (fun x => decide (x.id = c.id)) then
    Except.error RegError.DuplicateIdentifier
  else
    Except.ok (r ++ [c])

/-- The registry a caller holds after an attempted registration: on
failure the registry is left as it was. -/
def applyRegister (r : List Client) (c : Client) : List Client :=
  match register r c with
  | Except.ok r2 => r2
  | Except.error _ => r

def unregister (r : List Client) (cid : Nat) : List Client :=
  r.filter (fun x => decide (x.id ≠ cid))

/-- The welcome notification is the first server-originated notification
on a connection: every prefix of the send trace that contains some send
to `cid` already contains a welcome to `cid`. -/
def WelcomedFirst (cid : Nat) (l : List SendEvent) : Prop :=
  ∀ p, p <+: l → (∃ e ∈ p, e.target = cid) →
    ∃ w ∈ p, w.target = cid ∧ w.payload.isWelcome = true

/-! ### Structural lemmas about the broadcast fan-out -/

theorem broadcastFanout_targets (sender : Client) (msg : Json) (ts : Nat → Nat) :
    ∀ (clients : List Client) (k : Nat),
      (broadcastFanout sender msg ts clients k).map SendEvent.target
        = (otherOpen clients sender).map Client.id
  | [], _ => rfl
  | c :: rest, k => by
      by_cases h : c.id ≠ sender.id ∧ c.readyState = ReadyState.OPEN
      · rw [broadcastFanout, otherOpen, if_pos h, if_pos h, List.map_cons, List.map_cons]
        exact congrArg (c.id :: ·) (broadcastFanout_targets sender msg ts rest (k + 1))
      · rw [broadcastFanout, otherOpen, if_neg h, if_neg h]
        exact broadcastFanout_targets sender msg ts rest k

theorem broadcastFanout_payload (sender : Client) (msg : Json) (ts : Nat → Nat) :
    ∀ (clients : List Client) (k : Nat), ∀ e ∈ broadcastFanout sender msg ts clients k,
      (∃ t, e.payload = Notification.broadcast msg t) ∧ e.target ≠ sender.id
  | [], _ => by intro e he; cases he
  | c :: rest, k => by
      intro e he
      by_cases h : c.id ≠ sender.id ∧ c.readyState = ReadyState.OPEN
      · rw [broadcastFanout, if_pos h] at he
        rcases List.mem_cons.mp he with rfl | he2
        · exact ⟨⟨ts k, rfl⟩, h.1⟩
        · exact broadcastFanout_payload sender msg ts rest (k + 1) e he2
      · rw [broadcastFanout, if_neg h] at he
        exact broadcastFanout_payload sender msg ts rest k e he

theorem otherOpen_sublist : ∀ (clients : List Client) (sender : Client),
    (otherOpen clients sender).Sublist clients
  | [], _ => List.Sublist.refl []
  | c :: rest, sender => by
      by_cases h : c.id ≠ sender.id ∧ c.readyState = ReadyState.OPEN
      · rw [otherOpen, if_pos h]
        exact (otherOpen_sublist rest sender).cons₂ c
      · rw [otherOpen, if_neg h]
        exact (otherOpen_sublist rest sender).cons c

theorem otherOpen_mem {clients : List Client} {sender c : Client}
    (h : c ∈ otherOpen clients sender) :
    c ∈ clients ∧ c.id ≠ sender.id ∧ c.readyState = ReadyState.OPEN := by
  induction clients with
  | nil => cases h
  | cons a rest ih =>
      by_cases ha : a.id ≠ sender.id ∧ a.readyState = ReadyState.OPEN
      · rw [otherOpen, if_pos ha] at h
        rcases List.mem_cons.mp h with rfl | h2
        · exact ⟨List.mem_cons_self _ _, ha⟩
        · exact ⟨List.mem_cons_of_mem _ (ih h2).1, (ih h2).2⟩
      · rw [otherOpen, if_neg ha] at h
        exact ⟨List.mem_cons_of_mem _ (ih h).1, (ih h).2⟩

theorem mem_otherOpen {clients : List Client} {sender c : Client}
    (hm : c ∈ clients) (hne : c.id ≠ sender.id) (ho : c.readyState = ReadyState.OPEN) :
    c ∈ otherOpen clients sender := by
  induction clients with
  | nil => cases hm
  | cons a rest ih =>
      by_cases ha : a.id ≠ sender.id ∧ a.readyState = ReadyState.OPEN
      · rw [otherOpen, if_pos ha]
        rcases List.mem_cons.mp hm with rfl | h2
        · exact List.mem_cons_self _ _
        · exact List.mem_cons_of_mem _ (ih h2)
      · rw [otherOpen, if_neg ha]
        rcases List.mem_cons.mp hm with rfl | h2
        · exact absurd ⟨hne, ho⟩ ha
        · exact ih h2

/-- In a list of clients with pairwise distinct ids, filtering by the id
of a member yields exactly that one member. -/
theorem filter_id_length_one : ∀ (l : List Client), (l.map Client.id).Nodup →
    ∀ c ∈ l, (l.filter (fun x => decide (x.id = c.id))).length = 1
  | [], _, c, hc => absurd hc (List.not_mem_nil c)
  | a :: rest, hnd, c, hc => by
      rw [List.map_cons, List.nodup_cons] at hnd
      rcases List.mem_cons.mp hc with rfl | h2
      · rw [List.filter_cons_of_pos (by simp)]
        have hrest : rest.filter (fun x => decide (x.id = c.id)) = [] := by
          apply List.filter_eq_nil_iff.mpr
          intro b hb
          simp only [decide_eq_true_eq]
          intro hbc
          exact hnd.1 (hbc ▸ List.mem_map_of_mem Client.id hb)
        rw [hrest]
        rfl
      · have hne : ¬ a.id = c.id := by
          intro hac
          exact hnd.1 (hac ▸ List.mem_map_of_mem Client.id h2)
        rw [List.filter_cons_of_neg (by simpa using hne)]
        exact filter_id_length_one rest hnd.2 c h2

/-- The fan-out sends, per target id, as many broadcasts as there are
other open clients with that id. -/
theorem broadcastFanout_count (sender : Client) (msg : Json) (ts : Nat → Nat) (x : Nat) :
    ∀ (clients : List Client) (k : Nat),
      ((broadcastFanout sender msg ts clients k).filter
          (fun e => e.payload.isBroadcast && decide (e.target = x))).length
        = ((otherOpen clients sender).filter (fun c => decide (c.id = x))).length
  | [], _ => rfl
  | c :: rest, k => by
      by_cases h : c.id ≠ sender.id ∧ c.readyState = ReadyState.OPEN
      · rw [broadcastFanout, otherOpen, if_pos h, if_pos h]
        by_cases hx : c.id = x
        · rw [List.filter_cons_of_pos (by simp [Notification.isBroadcast, hx]),
            List.filter_cons_of_pos (by simp [hx]), List.length_cons, List.length_cons]
          exact congrArg (· + 1) (broadcastFanout_count sender msg ts x rest (k + 1))
        · rw [List.filter_cons_of_neg (by simp [Notification.isBroadcast, hx]),
            List.filter_cons_of_neg (by simp [hx])]
          exact broadcastFanout_count sender msg ts x rest (k + 1)
      · rw [broadcastFanout, otherOpen, if_neg h, if_neg h]
        exact broadcastFanout_count sender msg ts x rest k

theorem broadcastFanout_length (sender : Client) (msg : Json) (ts : Nat → Nat) :
    ∀ (clients : List Client) (k : Nat),
      (broadcastFanout sender msg ts clients k).length = (otherOpen clients sender).length := by
  intro clients k
  have := congrArg List.length (broadcastFanout_targets sender msg ts clients k)
  simpa using this

/-! ### Claims about message routing -/

/-- Claim C1: for every valid JSON payload P received from a connection C
while N other connections are open, the relay sends exactly one echo
notification to C carrying P as its original field, and exactly N
broadcast notifications each carrying P as its message field, one to
each other open connection and none to C itself (hence zero broadcasts
when no other connection is open). -/
theorem handleMessage_valid_json_routing
    (clients : List Client) (sender : Client) (parse : String → Option Json)
    (data : String) (ts : Nat → Nat) (P : Json)
    (hp : parse data = some P)
    (hnd : (clients.map Client.id).Nodup) :
    ((handleMessage clients sender parse data ts).filter
        (fun e => e.payload.isEcho)).length = 1
    ∧ (∀ e ∈ handleMessage clients sender parse data ts,
        e.payload.isEcho → e.target = sender.id ∧ e.payload = Notification.echo P (ts 0))
    ∧ ((handleMessage clients sender parse data ts).filter
        (fun e => e.payload.isBroadcast)).length = (otherOpen clients sender).length
    ∧ (∀ c ∈ otherOpen clients sender,
        ((handleMessage clients sender parse data ts).filter
            (fun e => e.payload.isBroadcast && decide (e.target = c.id))).length = 1)
    ∧ (∀ e ∈ handleMessage clients sender parse data ts,
        e.payload.isBroadcast →
          e.target ≠ sender.id ∧ ∃ t, e.payload = Notification.broadcast P t) := by
  have hunfold : handleMessage clients sender parse data ts
      = ⟨sender.id, Notification.echo P (ts 0)⟩ :: broadcastFanout sender P ts clients 1 := by
    unfold handleMessage
    rw [hp]
  have hfan := broadcastFanout_payload sender P ts clients 1
  refine ⟨?_, ?_, ?_, ?_, ?_⟩
  · rw [hunfold, List.filter_cons_of_pos (by simp [Notification.isEcho])]
    have hnoecho : (broadcastFanout sender P ts clients 1).filter
        (fun e => e.payload.isEcho) = [] := by
      apply List.filter_eq_nil_iff.mpr
      intro e he
      obtain ⟨⟨t, hpay⟩, _⟩ := hfan e he
      rw [hpay]
      simp [Notification.isEcho]
    rw [hnoecho]
    rfl
  · intro e he hecho
    rw [hunfold] at he
    rcases List.mem_cons.mp he with rfl | he2
    · exact ⟨rfl, rfl⟩
    · obtain ⟨⟨t, hpay⟩, _⟩ := hfan e he2
      rw [hpay] at hecho
      simp [Notification.isEcho] at hecho
  · rw [hunfold, List.filter_cons_of_neg (by simp [Notification.isBroadcast])]
    have hall : (broadcastFanout sender P ts clients 1).filter
        (fun e => e.payload.isBroadcast) = broadcastFanout sender P ts clients 1 := by
      apply List.filter_eq_self.mpr
      intro e he
      obtain ⟨⟨t, hpay⟩, _⟩ := hfan e he
      rw [hpay]
      rfl
    rw [hall]
    exact broadcastFanout_length sender P ts clients 1
  · intro c hc
    rw [hunfold, List.filter_cons_of_neg (by simp [Notification.isBroadcast])]
    rw [broadcastFanout_count sender P ts c.id clients 1]
    have hsub : ((otherOpen clients sender).map Client.id).Sublist (clients.map Client.id) :=
      (otherOpen_sublist clients sender).map Client.id
    exact filter_id_length_one (otherOpen clients sender) (hnd.sublist hsub) c hc
  · intro e he hb
    rw [hunfold] at he
    rcases List.mem_cons.mp he with rfl | he2
    · simp [Notification.isBroadcast] at hb
    · obtain ⟨⟨t, hpay⟩, hne⟩ := hfan e he2
      exact ⟨hne, t, hpay⟩

/-- Witness for C1 at a concrete input: sender 1 with one other open
connection (2) and one closed connection (3); the broadcast count equals
the number of other open connections, namely 1. -/
theorem handleMessage_valid_json_routing_witness :
    ((handleMessage [⟨1, ReadyState.OPEN⟩, ⟨2, ReadyState.OPEN⟩, ⟨3, ReadyState.CLOSED⟩]
        ⟨1, ReadyState.OPEN⟩ parseDemo "a" (fun _ => 0)).filter
        (fun e => e.payload.isBroadcast)).length
      = (otherOpen [⟨1, ReadyState.OPEN⟩, ⟨2, ReadyState.OPEN⟩, ⟨3, ReadyState.CLOSED⟩]
          ⟨1, ReadyState.OPEN⟩).length :=
  (handleMessage_valid_json_routing _ _ parseDemo "a" _ Json.null (by rfl) (by decide)).2.2.1

/-- Claim C2: for every inbound payload that is not JSON-parseable, the
relay sends exactly one error notification with the fixed message
"Invalid JSON format" to the originating connection only — zero
broadcasts and zero echoes — and the connection remains open: the
message handler leaves the whole server state (registry membership and
every connection's readyState) untouched. -/
theorem handleMessage_parse_failure
    (clients : List Client) (sender : Client) (parse : String → Option Json)
    (data : String) (ts : Nat → Nat) (s : ServerState) (sid : Nat)
    (hp : parse data = none) :
    handleMessage clients sender parse data ts
        = [⟨sender.id, Notification.error "Invalid JSON format"⟩]
    ∧ (gStep parse ts s (GEvent.message sid data)).1 = s := by
  constructor
  · unfold handleMessage
    rw [hp]
  · cases hf : s.clients.find? (fun c => decide (c.id = sid)) with
    | none => simp [gStep, hf]
    | some sender2 => simp [gStep, hf]

/-- Witness for C2 at a concrete input: the payload "b" does not parse
under `parseDemo`, and the handler emits exactly the single error
notification to the sender. -/
theorem handleMessage_parse_failure_witness :
    handleMessage [⟨1, ReadyState.OPEN⟩, ⟨2, ReadyState.OPEN⟩] ⟨1, ReadyState.OPEN⟩
        parseDemo "b" (fun _ => 0)
      = [⟨1, Notification.error "Invalid JSON format"⟩] :=
  (handleMessage_parse_failure [⟨1, ReadyState.OPEN⟩, ⟨2, ReadyState.OPEN⟩]
    ⟨1, ReadyState.OPEN⟩ parseDemo "b" (fun _ => 0) ⟨[]⟩ 1 (by rfl)).1

/-- Claim C3: inbound messages on one connection are processed in
arrival order (the trace of a payload list is that payload's handler
output followed by the trace of the remaining payloads), and for every
inbound message the echo send to the originating connection is the first
send dispatched — it is attempted before any broadcast send of that
message. -/
theorem messageTrace_echo_before_broadcast
    (clients : List Client) (sender : Client) (parse : String → Option Json)
    (ts : Nat → Nat) (d : String) (rest : List String) (P : Json)
    (hp : parse d = some P) :
    messageTrace clients sender parse ts (d :: rest)
        = handleMessage clients sender parse d ts ++ messageTrace clients sender parse ts rest
    ∧ (∃ tl, handleMessage clients sender parse d ts
          = ⟨sender.id, Notification.echo P (ts 0)⟩ :: tl
        ∧ ∀ e ∈ tl, e.payload.isBroadcast) := by
  refine ⟨rfl, broadcastFanout sender P ts clients 1, ?_, ?_⟩
  · unfold handleMessage
    rw [hp]
  · intro e he
    obtain ⟨⟨t, hpay⟩, _⟩ := broadcastFanout_payload sender P ts clients 1 e he
    rw [hpay]
    rfl

/-- Witness for C3 at a concrete input: two inbound payloads; the
handler output of the first is dispatched in full before the second's,
and the echo of the first heads its block. -/
theorem messageTrace_echo_before_broadcast_witness :
    messageTrace [⟨1, ReadyState.OPEN⟩, ⟨2, ReadyState.OPEN⟩] ⟨1, ReadyState.OPEN⟩
        parseDemo (fun _ => 0) ["a", "b"]
      = handleMessage [⟨1, ReadyState.OPEN⟩, ⟨2, ReadyState.OPEN⟩] ⟨1, ReadyState.OPEN⟩
          parseDemo "a" (fun _ => 0)
        ++ messageTrace [⟨1, ReadyState.OPEN⟩, ⟨2, ReadyState.OPEN⟩] ⟨1, ReadyState.OPEN⟩
            parseDemo (fun _ => 0) ["b"] :=
  (messageTrace_echo_before_broadcast [⟨1, ReadyState.OPEN⟩, ⟨2, ReadyState.OPEN⟩]
    ⟨1, ReadyState.OPEN⟩ parseDemo (fun _ => 0) "a" ["b"] Json.null (by rfl)).1

/-- Claim C9: the echo's timestamp and each recipient's broadcast
timestamp come from separate `new Date()` calls made at that
notification's own send time — the k-th send samples the clock at its
own index — so with a clock that advances between sends the echo and the
two broadcasts of one and the same inbound message all carry pairwise
different timestamp values. -/
theorem handleMessage_timestamps_independent :
    (∀ ts : Nat → Nat,
        handleMessage [⟨1, ReadyState.OPEN⟩, ⟨2, ReadyState.OPEN⟩, ⟨3, ReadyState.OPEN⟩]
            ⟨1, ReadyState.OPEN⟩ parseDemo "a" ts
          = [⟨1, Notification.echo Json.null (ts 0)⟩,
             ⟨2, Notification.broadcast Json.null (ts 1)⟩,
             ⟨3, Notification.broadcast Json.null (ts 2)⟩])
    ∧ (let evs := handleMessage
          [⟨1, ReadyState.OPEN⟩, ⟨2, ReadyState.OPEN⟩, ⟨3, ReadyState.OPEN⟩]
          ⟨1, ReadyState.OPEN⟩ parseDemo "a" (fun k => k)
       evs = [⟨1, Notification.echo Json.null 0⟩,
              ⟨2, Notification.broadcast Json.null 1⟩,
              ⟨3, Notification.broadcast Json.null 2⟩]
       ∧ (0 : Nat) ≠ 1 ∧ (0 : Nat) ≠ 2 ∧ (1 : Nat) ≠ 2) := by
  constructor
  · intro ts
    rfl
  · exact ⟨rfl, by simp, by simp, by simp⟩

theorem broadcastFanout_mem (sender : Client) (msg : Json) (ts : Nat → Nat) :
    ∀ (clients : List Client) (k : Nat), ∀ c ∈ otherOpen clients sender,
      ∃ t, (⟨c.id, Notification.broadcast msg t⟩ : SendEvent)
        ∈ broadcastFanout sender msg ts clients k
  | [], _, c, hc => absurd hc (List.not_mem_nil c)
  | a :: rest, k, c, hc => by
      by_cases h : a.id ≠ sender.id ∧ a.readyState = ReadyState.OPEN
      · rw [otherOpen, if_pos h] at hc
        rw [broadcastFanout, if_pos h]
        rcases List.mem_cons.mp hc with rfl | hc2
        · exact ⟨ts k, List.mem_cons_self _ _⟩
        · obtain ⟨t, ht⟩ := broadcastFanout_mem sender msg ts rest (k + 1) c hc2
          exact ⟨t, List.mem_cons_of_mem _ ht⟩
      · rw [otherOpen, if_neg h] at hc
        rw [broadcastFanout, if_neg h]
        exact broadcastFanout_mem sender msg ts rest k c hc

/-- Claim C4: during a broadcast fan-out a send failure to one recipient
is isolated.  Whatever set of recipient transports fails, every other
open connection whose own transport does not fail still receives the
broadcast (the attempt list never depends on any send's outcome), and
nothing is propagated to the originating sender: the only send the
handler ever addresses to the sender is its echo. -/
theorem broadcast_failure_isolated
    (clients : List Client) (sender : Client) (parse : String → Option Json)
    (data : String) (ts : Nat → Nat) (P : Json) (fails : Nat → Bool)
    (hp : parse data = some P) :
    (∀ c ∈ otherOpen clients sender, fails c.id = false →
        ∃ e ∈ deliver fails (handleMessage clients sender parse data ts),
          e.target = c.id ∧ ∃ t, e.payload = Notification.broadcast P t)
    ∧ (∀ e ∈ handleMessage clients sender parse data ts,
        e.target = sender.id → e.payload = Notification.echo P (ts 0)) := by
  have hunfold : handleMessage clients sender parse data ts
      = ⟨sender.id, Notification.echo P (ts 0)⟩ :: broadcastFanout sender P ts clients 1 := by
    unfold handleMessage
    rw [hp]
  constructor
  · intro c hc hok
    obtain ⟨t, ht⟩ := broadcastFanout_mem sender P ts clients 1 c hc
    refine ⟨⟨c.id, Notification.broadcast P t⟩, ?_, rfl, t, rfl⟩
    apply List.mem_filter.mpr
    refine ⟨?_, by simp [hok]⟩
    rw [hunfold]
    exact List.mem_cons_of_mem _ ht
  · intro e he htgt
    rw [hunfold] at he
    rcases List.mem_cons.mp he with rfl | he2
    · rfl
    · exact absurd htgt (broadcastFanout_payload sender P ts clients 1 e he2).2

/-- Witness for C4 at a concrete input: connections 1 (sender), 2 and 3
are open; recipient 2's transport fails; recipient 3 still receives the
broadcast. -/
theorem broadcast_failure_isolated_witness :
    ∃ e ∈ deliver (fun id => decide (id = 2))
        (handleMessage [⟨1, ReadyState.OPEN⟩, ⟨2, ReadyState.OPEN⟩, ⟨3, ReadyState.OPEN⟩]
          ⟨1, ReadyState.OPEN⟩ parseDemo "a" (fun _ => 0)),
      e.target = 3 ∧ ∃ t, e.payload = Notification.broadcast Json.null t :=
  (broadcast_failure_isolated [⟨1, ReadyState.OPEN⟩, ⟨2, ReadyState.OPEN⟩, ⟨3, ReadyState.OPEN⟩]
      ⟨1, ReadyState.OPEN⟩ parseDemo "a" (fun _ => 0) Json.null
      (fun id => decide (id = 2)) (by rfl)).1
    ⟨3, ReadyState.OPEN⟩ (by decide) (by decide)

/-- Counterexample to claim C6 as stated.  The claim says that once a
connection is not in the OPEN state no send of any kind is attempted on
it by the relay.  But the echo (like the error and welcome sends) is
dispatched with no readyState check: here connection 1 is in CLOSING
state when its message event is handled (the ws transport still delivers
already-received messages after a close has been initiated), and the
relay nevertheless attempts the echo send on it — the first attempted
send targets the non-open connection 1. -/
theorem send_attempted_on_non_open_connection :
    (handleMessage [⟨1, ReadyState.CLOSING⟩, ⟨2, ReadyState.OPEN⟩] ⟨1, ReadyState.CLOSING⟩
        parseDemo "a" (fun _ => 0)).head?
      = some ⟨1, Notification.echo Json.null 0⟩
    ∧ (⟨1, ReadyState.CLOSING⟩ : Client).readyState ≠ ReadyState.OPEN :=
  ⟨rfl, by decide⟩

/-- Claim C6 amended: once a connection is not in the OPEN state, no
broadcast and no liveness probe is attempted on it — both carry an
explicit `readyState === OPEN` guard — but the echo, error and welcome
sends are dispatched without a state check, so the relay may still
attempt one of those sends on a non-open connection. -/
theorem no_broadcast_or_probe_to_non_open
    (clients : List Client) (sender : Client) (parse : String → Option Json)
    (data : String) (ts : Nat → Nat) (c : Client)
    (hnd : (clients.map Client.id).Nodup)
    (hc : c ∈ clients) (hno : c.readyState ≠ ReadyState.OPEN) :
    (∀ e ∈ handleMessage clients sender parse data ts,
        e.payload.isBroadcast → e.target ≠ c.id)
    ∧ (∀ s : TimerState, s.readyState ≠ ReadyState.OPEN →
        (lifeStep s LifeEvent.tick).probes = s.probes) := by
  constructor
  · intro e he hb htgt
    cases hparse : parse data with
    | none =>
        unfold handleMessage at he
        rw [hparse] at he
        rcases List.mem_cons.mp he with rfl | he2
        · simp [Notification.isBroadcast] at hb
        · cases he2
    | some P =>
        unfold handleMessage at he
        rw [hparse] at he
        rcases List.mem_cons.mp he with rfl | he2
        · simp [Notification.isBroadcast] at hb
        · have htg := broadcastFanout_targets sender P ts clients 1
          have hmem : e.target ∈ (otherOpen clients sender).map Client.id := by
            rw [← htg]
            exact List.mem_map_of_mem SendEvent.target he2
          obtain ⟨c2, hc2, hcid⟩ := List.mem_map.mp hmem
          have hopen := (otherOpen_mem hc2).2.2
          have : c2 = c := by
            have hcc : c2.id = c.id := by rw [hcid, htgt]
            have h1 : c2 ∈ clients := (otherOpen_mem hc2).1
            have hfil1 : c2 ∈ clients.filter (fun x => decide (x.id = c.id)) :=
              List.mem_filter.mpr ⟨h1, by simp [hcc]⟩
            have hfil2 : c ∈ clients.filter (fun x => decide (x.id = c.id)) :=
              List.mem_filter.mpr ⟨hc, by simp⟩
            have hlen := filter_id_length_one clients hnd c hc
            rcases List.length_eq_one.mp hlen with ⟨u, hu⟩
            rw [hu] at hfil1 hfil2
            rcases List.mem_singleton.mp hfil1 with rfl
            exact (List.mem_singleton.mp hfil2).symm
          exact hno (this ▸ hopen)
  · intro s hs
    unfold lifeStep
    by_cases ha : s.timerActive
    · rw [if_pos ha, if_neg hs]
    · rw [if_neg ha]

/-! ### Liveness timer lemmas -/

theorem lifeStep_close (s : TimerState) (e : LifeEvent) (he : isCloseEvent e = true) :
    lifeStep s e = closePath s := by
  cases e with
  | tick => simp [isCloseEvent] at he
  | remoteClose => rfl
  | shutdownClose => rfl

theorem lifeStep_tick_cases (s : TimerState) :
    lifeStep s LifeEvent.tick = s
    ∨ (s.timerActive = true ∧ s.readyState = ReadyState.OPEN
        ∧ lifeStep s LifeEvent.tick = { s with probes := s.probes + 1 }) := by
  unfold lifeStep
  by_cases ha : s.timerActive
  · rw [if_pos ha]
    by_cases ho : s.readyState = ReadyState.OPEN
    · rw [if_pos ho]
      exact Or.inr ⟨ha, ho, rfl⟩
    · rw [if_neg ho]
      exact Or.inl rfl
  · rw [if_neg ha]
    exact Or.inl rfl

theorem lifeStep_cleanupRuns (s : TimerState) (e : LifeEvent) :
    (lifeStep s e).cleanupRuns
      = s.cleanupRuns + (if isCloseEvent e = true then 1 else 0) := by
  cases e with
  | tick =>
      rcases lifeStep_tick_cases s with h | ⟨_, _, h⟩ <;>
        simp [h, isCloseEvent]
  | remoteClose => rfl
  | shutdownClose => rfl

theorem lifeRun_cleanupRuns : ∀ (evs : List LifeEvent) (s : TimerState),
    (lifeRun s evs).cleanupRuns = s.cleanupRuns + (evs.filter isCloseEvent).length
  | [], s => by simp [lifeRun]
  | e :: rest, s => by
      simp only [lifeRun]
      rw [lifeRun_cleanupRuns rest (lifeStep s e), lifeStep_cleanupRuns]
      by_cases hce : isCloseEvent e = true
      · rw [List.filter_cons_of_pos hce, if_pos hce, List.length_cons]
        omega
      · rw [List.filter_cons_of_neg (by simpa using hce), if_neg hce]
        omega

theorem lifeRun_probes_inactive : ∀ (evs : List LifeEvent) (s : TimerState),
    s.timerActive = false →
      (lifeRun s evs).probes = s.probes ∧ (lifeRun s evs).timerActive = false
  | [], s, h => ⟨rfl, h⟩
  | e :: rest, s, h => by
      simp only [lifeRun]
      cases e with
      | tick =>
          have hs : lifeStep s LifeEvent.tick = s := by
            unfold lifeStep
            rw [if_neg (by simp [h])]
          rw [hs]
          exact lifeRun_probes_inactive rest s h
      | remoteClose =>
          have h2 : (closePath s).timerActive = false := rfl
          have := lifeRun_probes_inactive rest (closePath s) h2
          exact ⟨this.1, this.2⟩
      | shutdownClose =>
          have h2 : (closePath s).timerActive = false := rfl
          have := lifeRun_probes_inactive rest (closePath s) h2
          exact ⟨this.1, this.2⟩

theorem lifeRun_append : ∀ (l1 l2 : List LifeEvent) (s : TimerState),
    lifeRun s (l1 ++ l2) = lifeRun (lifeRun s l1) l2
  | [], l2, s => rfl
  | e :: rest, l2, s => by
      rw [List.cons_append]
      simp only [lifeRun]
      exact lifeRun_append rest l2 (lifeStep s e)

/-- Claim C5: each connection's liveness timer fires on a fixed 30000 ms
(30 second) interval; on each firing a probe is issued only if the
connection is open; the close path — run once by the transport's single
close event, whichever condition (remote close or shutdown) triggered it
— cancels the timer and removes the connection from the registry, so no
probe fires after close and the cleanup runs exactly once. -/
theorem liveness_timer_lifecycle (evs : List LifeEvent) :
    ((lifeRun openConn evs).cleanupRuns = (evs.filter isCloseEvent).length)
    ∧ ((evs.filter isCloseEvent).length = 1 → (lifeRun openConn evs).cleanupRuns = 1)
    ∧ (∀ pre e post, evs = pre ++ e :: post → isCloseEvent e = true →
        (lifeRun openConn evs).probes = (lifeRun openConn (pre ++ [e])).probes
        ∧ (lifeRun openConn (pre ++ [e])).timerActive = false
        ∧ (lifeRun openConn (pre ++ [e])).registered = false)
    ∧ (∀ s : TimerState, s.timerActive = true → s.readyState = ReadyState.OPEN →
        (lifeStep s LifeEvent.tick).probes = s.probes + 1)
    ∧ (∀ s : TimerState, s.readyState ≠ ReadyState.OPEN →
        (lifeStep s LifeEvent.tick).probes = s.probes)
    ∧ pingIntervalMs = 30000 := by
  have hcount := lifeRun_cleanupRuns evs openConn
  refine ⟨by simpa [openConn] using hcount, ?_, ?_, ?_, ?_, rfl⟩
  · intro h1
    rw [hcount, h1]
    rfl
  · intro pre e post heq hce
    have hsplit : evs = (pre ++ [e]) ++ post := by
      rw [heq]
      simp
    have hclosed : lifeRun openConn (pre ++ [e]) = closePath (lifeRun openConn pre) := by
      rw [lifeRun_append]
      simp only [lifeRun]
      rw [lifeStep_close _ e hce]
    have hact : (lifeRun openConn (pre ++ [e])).timerActive = false := by
      rw [hclosed]
      rfl
    refine ⟨?_, hact, ?_⟩
    · rw [hsplit, lifeRun_append]
      exact (lifeRun_probes_inactive post _ hact).1
    · rw [hclosed]
      rfl
  · intro s ha ho
    unfold lifeStep
    rw [if_pos ha, if_pos ho]
  · intro s hno
    unfold lifeStep
    by_cases ha : s.timerActive
    · rw [if_pos ha, if_neg hno]
    · rw [if_neg ha]

/-- Witness for C5 at a concrete trace: two interval firings while open
issue two probes, the remote close runs cleanup once, and the firing
after close issues no further probe. -/
theorem liveness_timer_lifecycle_witness :
    (lifeRun openConn
        [LifeEvent.tick, LifeEvent.tick, LifeEvent.remoteClose, LifeEvent.tick]).cleanupRuns = 1
    ∧ (lifeRun openConn
        [LifeEvent.tick, LifeEvent.tick, LifeEvent.remoteClose, LifeEvent.tick]).probes
      = (lifeRun openConn
          [LifeEvent.tick, LifeEvent.tick, LifeEvent.remoteClose]).probes :=
  ⟨(liveness_timer_lifecycle
      [LifeEvent.tick, LifeEvent.tick, LifeEvent.remoteClose, LifeEvent.tick]).2.1 (by decide),
   ((liveness_timer_lifecycle
      [LifeEvent.tick, LifeEvent.tick, LifeEvent.remoteClose, LifeEvent.tick]).2.2.1
      [LifeEvent.tick, LifeEvent.tick] LifeEvent.remoteClose [LifeEvent.tick]
      (by decide) (by decide)).1⟩

/-- Claim C7: on an external termination signal the relay closes every
connection currently in the registry, then stops accepting new
connections, and only then releases the listening resource; completion
is signalled only after all connections have finished their close path. -/
theorem shutdown_sequence (registry : List Nat) :
    (∀ id ∈ registry, ShutEvent.closeConn id ∈ shutdownTrace registry)
    ∧ (∃ pre post, shutdownTrace registry = pre ++ ShutEvent.stopAccepting :: post
        ∧ (∀ e ∈ pre, ∃ id ∈ registry, e = ShutEvent.closeConn id)
        ∧ (∀ id ∈ registry, ShutEvent.closeConn id ∈ pre)
        ∧ ShutEvent.releaseListener ∈ post)
    ∧ (∃ pre2, shutdownTrace registry = pre2 ++ [ShutEvent.signalComplete]
        ∧ (∀ id ∈ registry, ShutEvent.connFinished id ∈ pre2)
        ∧ ShutEvent.releaseListener ∈ pre2) := by
  refine ⟨?_, ?_, ?_⟩
  · intro id hid
    unfold shutdownTrace
    exact List.mem_append_left _
      (List.mem_append_left _ (List.mem_append_left _ (List.mem_map_of_mem _ hid)))
  · refine ⟨registry.map ShutEvent.closeConn,
      registry.map ShutEvent.connFinished ++ [ShutEvent.releaseListener, ShutEvent.signalComplete],
      ?_, ?_, ?_, ?_⟩
    · unfold shutdownTrace
      simp
    · intro e he
      obtain ⟨id, hid, rfl⟩ := List.mem_map.mp he
      exact ⟨id, hid, rfl⟩
    · intro id hid
      exact List.mem_map_of_mem _ hid
    · simp
  · refine ⟨registry.map ShutEvent.closeConn ++ [ShutEvent.stopAccepting]
        ++ registry.map ShutEvent.connFinished ++ [ShutEvent.releaseListener], ?_, ?_, ?_⟩
    · unfold shutdownTrace
      simp
    · intro id hid
      simp only [List.mem_append]
      exact Or.inl (Or.inr (List.mem_map_of_mem _ hid))
    · simp

/-- Witness for C7 at a concrete registry: with connections 5 and 7
registered, both receive a close, and both finish before completion is
signalled. -/
theorem shutdown_sequence_witness :
    ShutEvent.closeConn 5 ∈ shutdownTrace [5, 7]
    ∧ ShutEvent.closeConn 7 ∈ shutdownTrace [5, 7] :=
  ⟨(shutdown_sequence [5, 7]).1 5 (by decide),
   (shutdown_sequence [5, 7]).1 7 (by decide)⟩

/-- Claim C8: registering a connection whose identifier already exists
fails with DuplicateIdentifier and leaves the registry as it was, so the
original registration is unaffected; unregistering an identifier that is
absent is a no-op — and being a total function it never raises. -/
theorem registry_register_unregister (r : List Client) (c : Client) (cid : Nat) :
    ((∃ x ∈ r, x.id = c.id) →
        register r c = Except.error RegError.DuplicateIdentifier
        ∧ applyRegister r c = r)
    ∧ ((∀ x ∈ r, x.id ≠ cid) → unregister r cid = r) := by
  constructor
  · rintro ⟨x, hx, hid⟩
    have hany : r.any (fun x => decide (x.id = c.id)) = true :=
      List.any_eq_true.mpr ⟨x, hx, by simp [hid]⟩
    have hreg : register r c = Except.error RegError.DuplicateIdentifier := by
      unfold register
      rw [if_pos hany]
    refine ⟨hreg, ?_⟩
    unfold applyRegister
    rw [hreg]
  · intro habs
    unfold unregister
    apply List.filter_eq_self.mpr
    intro x hx
    simpa using habs x hx

/-- Witness for C8 at a concrete registry: registering a second
connection with identifier 1 fails and leaves the registry unchanged;
unregistering the absent identifier 2 is a no-op. -/
theorem registry_register_unregister_witness :
    (register [⟨1, ReadyState.OPEN⟩] ⟨1, ReadyState.CLOSED⟩
        = Except.error RegError.DuplicateIdentifier
      ∧ applyRegister [⟨1, ReadyState.OPEN⟩] ⟨1, ReadyState.CLOSED⟩ = [⟨1, ReadyState.OPEN⟩])
    ∧ unregister [⟨1, ReadyState.OPEN⟩] 2 = [⟨1, ReadyState.OPEN⟩] :=
  ⟨(registry_register_unregister [⟨1, ReadyState.OPEN⟩] ⟨1, ReadyState.CLOSED⟩ 2).1
      ⟨⟨1, ReadyState.OPEN⟩, by decide, rfl⟩,
   (registry_register_unregister [⟨1, ReadyState.OPEN⟩] ⟨1, ReadyState.CLOSED⟩ 2).2
      (by decide)⟩

/-! ### Welcome-before-anything lemmas -/

theorem prefix_append_cases {α : Type} : ∀ {l1 : List α} {l2 p : List α},
    p <+: l1 ++ l2 → p <+: l1 ∨ ∃ p2, p = l1 ++ p2 ∧ p2 <+: l2 := by
  intro l1
  induction l1 with
  | nil =>
      intro l2 p h
      exact Or.inr ⟨p, rfl, h⟩
  | cons a l1 ih =>
      intro l2 p h
      cases p with
      | nil => exact Or.inl List.nil_prefix
      | cons b p2 =>
          rw [List.cons_append] at h
          obtain ⟨rfl, h2⟩ := List.cons_prefix_cons.mp h
          rcases ih h2 with h3 | ⟨p3, rfl, h4⟩
          · exact Or.inl (List.cons_prefix_cons.mpr ⟨rfl, h3⟩)
          · exact Or.inr ⟨p3, rfl, h4⟩

theorem welcomedFirst_append_of_no_target {cid : Nat} {l1 l2 : List SendEvent}
    (h1 : ∀ e ∈ l1, e.target ≠ cid) (h2 : WelcomedFirst cid l2) :
    WelcomedFirst cid (l1 ++ l2) := by
  rintro p hp ⟨e, hep, het⟩
  rcases prefix_append_cases hp with hle | ⟨p2, rfl, hp2⟩
  · exact absurd het (h1 e (hle.subset hep))
  · rcases List.mem_append.mp hep with he1 | he2
    · exact absurd het (h1 e he1)
    · obtain ⟨w, hw, hwt⟩ := h2 p2 hp2 ⟨e, he2, het⟩
      exact ⟨w, List.mem_append_right _ hw, hwt⟩

theorem welcomedFirst_cons_welcome {cid : Nat} {w : SendEvent} {l : List SendEvent}
    (hwt : w.target = cid) (hwel : w.payload.isWelcome = true) :
    WelcomedFirst cid (w :: l) := by
  rintro p hp ⟨e, hep, het⟩
  cases p with
  | nil => cases hep
  | cons a p2 =>
      obtain ⟨rfl, _⟩ := List.cons_prefix_cons.mp hp
      exact ⟨a, List.mem_cons_self _ _, hwt, hwel⟩

theorem handleMessage_targets (clients : List Client) (sender : Client)
    (parse : String → Option Json) (data : String) (ts : Nat → Nat) :
    ∀ e ∈ handleMessage clients sender parse data ts,
      e.target = sender.id ∨ e.target ∈ clients.map Client.id := by
  intro e he
  cases hp : parse data with
  | none =>
      unfold handleMessage at he
      rw [hp] at he
      rcases List.mem_cons.mp he with rfl | he2
      · exact Or.inl rfl
      · cases he2
  | some P =>
      unfold handleMessage at he
      rw [hp] at he
      rcases List.mem_cons.mp he with rfl | he2
      · exact Or.inl rfl
      · right
        have hmem : e.target ∈ (otherOpen clients sender).map Client.id := by
          rw [← broadcastFanout_targets sender P ts clients 1]
          exact List.mem_map_of_mem SendEvent.target he2
        exact ((otherOpen_sublist clients sender).map Client.id).subset hmem

theorem sentTrace_welcomedFirst (parse : String → Option Json) (ts : Nat → Nat) (cid : Nat) :
    ∀ (evts : List GEvent) (s : ServerState),
      cid ∉ s.clients.map Client.id → WelcomedFirst cid (sentTrace parse ts s evts)
  | [], _, _ => by
      rintro p hp ⟨e, hep, _⟩
      rw [List.prefix_nil.mp hp] at hep
      cases hep
  | GEvent.connect id :: rest, s, h => by
      simp only [sentTrace, gStep]
      by_cases hid : id = cid
      · subst hid
        exact welcomedFirst_cons_welcome rfl rfl
      · apply welcomedFirst_append_of_no_target
        · intro e he
          rcases List.mem_cons.mp he with rfl | he2
          · exact hid
          · cases he2
        · apply sentTrace_welcomedFirst parse ts cid rest
          simp only [List.map_append, List.map_cons, List.map_nil]
          intro hmem
          rcases List.mem_append.mp hmem with h1 | h2
          · exact h h1
          · rcases List.mem_cons.mp h2 with heq | h3
            · exact hid heq.symm
            · cases h3
  | GEvent.message sid data :: rest, s, h => by
      simp only [sentTrace]
      cases hf : s.clients.find? (fun c => decide (c.id = sid)) with
      | none =>
          rw [show (gStep parse ts s (GEvent.message sid data)).2 = [] from by
              simp [gStep, hf],
            show (gStep parse ts s (GEvent.message sid data)).1 = s from by
              simp [gStep, hf]]
          rw [List.nil_append]
          exact sentTrace_welcomedFirst parse ts cid rest s h
      | some sender =>
          rw [show (gStep parse ts s (GEvent.message sid data)).2
                = handleMessage s.clients sender parse data ts from by
              simp [gStep, hf],
            show (gStep parse ts s (GEvent.message sid data)).1 = s from by
              simp [gStep, hf]]
          apply welcomedFirst_append_of_no_target
          · intro e he htgt
            have hsender : sender ∈ s.clients := List.mem_of_find?_eq_some hf
            rcases handleMessage_targets s.clients sender parse data ts e he with h1 | h2
            · exact h (htgt ▸ h1 ▸ List.mem_map_of_mem Client.id hsender)
            · exact h (htgt ▸ h2)
          · exact sentTrace_welcomedFirst parse ts cid rest s h
  | GEvent.disconnect id :: rest, s, h => by
      simp only [sentTrace, gStep]
      rw [List.nil_append]
      apply sentTrace_welcomedFirst parse ts cid rest
      intro hmem
      apply h
      have hsub : (s.clients.filter (fun c => decide (c.id ≠ id))).Sublist s.clients :=
        List.filter_sublist s.clients
      exact (hsub.map Client.id).subset hmem

/-- Claim C10: starting from an empty registry, on every connection the
welcome notification — sent synchronously inside the connection handler,
before any message handler of that socket can run — is the first
server-originated notification addressed to that connection: every
prefix of the server's send trace containing any send to a connection
already contains that connection's welcome, so no echo, broadcast or
error precedes it. -/
theorem welcome_first_notification (parse : String → Option Json) (ts : Nat → Nat)
    (evts : List GEvent) (cid : Nat) :
    WelcomedFirst cid (sentTrace parse ts ⟨[]⟩ evts) :=
  sentTrace_welcomedFirst parse ts cid evts ⟨[]⟩ (by simp)

/-- Witness for C10 at a concrete run: clients 1 and 2 connect, then 1
sends a valid payload; since the trace contains a broadcast to 2, the
theorem yields a welcome to 2 in the trace. -/
theorem welcome_first_notification_witness :
    ∃ w ∈ sentTrace parseDemo (fun _ => 0) ⟨[]⟩
        [GEvent.connect 1, GEvent.connect 2, GEvent.message 1 "a"],
      w.target = 2 ∧ w.payload.isWelcome = true := by
  have htr : sentTrace parseDemo (fun _ => 0) ⟨[]⟩
      [GEvent.connect 1, GEvent.connect 2, GEvent.message 1 "a"]
      = [⟨1, Notification.welcome "Connected to WebSocket server" 0⟩,
         ⟨2, Notification.welcome "Connected to WebSocket server" 0⟩,
         ⟨1, Notification.echo Json.null 0⟩,
         ⟨2, Notification.broadcast Json.null 0⟩] := rfl
  exact welcome_first_notification parseDemo (fun _ => 0)
    [GEvent.connect 1, GEvent.connect 2, GEvent.message 1 "a"] 2
    _ (List.prefix_refl _)
    ⟨⟨2, Notification.broadcast Json.null 0⟩, by rw [htr]; simp, rfl⟩

/-- Witness for the amended C6 at a concrete input: a tick on a
connection in CLOSING state issues no probe. -/
theorem no_broadcast_or_probe_to_non_open_witness :
    (lifeStep ⟨ReadyState.CLOSING, true, true, 5, 0⟩ LifeEvent.tick).probes = 5 :=
  (no_broadcast_or_probe_to_non_open [⟨1, ReadyState.OPEN⟩, ⟨2, ReadyState.CLOSED⟩]
      ⟨1, ReadyState.OPEN⟩ parseDemo "a" (fun _ => 0) ⟨2, ReadyState.CLOSED⟩
      (by decide) (by decide) (by decide)).2
    ⟨ReadyState.CLOSING, true, true, 5, 0⟩ (by decide)

/-- Witness for C9 at a concrete clock: with the clock advancing by one
between Date calls, the echo and the two broadcasts of the same message
carry the three distinct timestamps 10, 11 and 12. -/
theorem handleMessage_timestamps_independent_witness :
    handleMessage [⟨1, ReadyState.OPEN⟩, ⟨2, ReadyState.OPEN⟩, ⟨3, ReadyState.OPEN⟩]
        ⟨1, ReadyState.OPEN⟩ parseDemo "a" (fun k => k + 10)
      = [⟨1, Notification.echo Json.null 10⟩,
         ⟨2, Notification.broadcast Json.null 11⟩,
         ⟨3, Notification.broadcast Json.null 12⟩] :=
  handleMessage_timestamps_independent.1 (fun k => k + 10)
